import Mathlib

/-!
Shallow embedding of the `pubsub` Go package (src/pubsub.go): an in-process
publish/subscribe dispatcher.  Handlers in Go are opaque callbacks
`func(...any)`; the dispatcher never inspects them or their arguments, so we
model handlers by identifiers of an arbitrary type `H` and publish arguments
by lists over an arbitrary type `A`.  An invocation of a handler is recorded
as a trace event `(handler, args)`.  Go's `error` results are modelled as
`Option Unit` (`none` = the `nil` error); no function in the source ever
returns a non-nil error.
-/

namespace PubsubGo

/-- A Go `error` return value: `none` is Go's `nil`. -/
abbrev GoErr := Option Unit

/-- Embeds the Go struct `topic` (src/pubsub.go:150-156): a name, an ordered
slice of handlers, the two delivery-mode flags and the closed flag. -/
structure Topic (H : Type) where
  name : String
  handlers : List H
  once : Bool
  onceEach : Bool
  closed : Bool
deriving Repr, DecidableEq

/-- Embeds `newTopic` (src/pubsub.go:158-162): all fields other than the name
take Go zero values (empty slice, false flags). -/
def newTopic (H : Type) (name : String) : Topic H :=
  { name := name, handlers := [], once := false, onceEach := false, closed := false }

/-- Embeds `topic.subscribe` (src/pubsub.go:164-172): no-op returning nil on a
closed topic; otherwise appends the handler and overwrites both mode flags
from this call's arguments. -/
def Topic.subscribe {H : Type} (t : Topic H) (handler : H) (once onceEach : Bool) :
    Topic H × GoErr :=
  if t.closed then (t, none)
  else ({ t with handlers := t.handlers ++ [handler], once := once, onceEach := onceEach },
        none)

/-- Embeds `topic.unsubscribe` (src/pubsub.go:174-181): no-op on a closed
topic; otherwise clears the handler slice and sets `closed`. -/
def Topic.unsubscribe {H : Type} (t : Topic H) : Topic H × GoErr :=
  if t.closed then (t, none)
  else ({ t with handlers := [], closed := true }, none)

/-- Embeds `topic.close` (src/pubsub.go:199-206); its body is identical to
`topic.unsubscribe`. -/
def Topic.close {H : Type} (t : Topic H) : Topic H × GoErr :=
  if t.closed then (t, none)
  else ({ t with handlers := [], closed := true }, none)

/-- One iteration of the `for _, handler := range t.handlers` loop body in
`topic.publish` (src/pubsub.go:187-195).  The accumulator pairs the current
value of the `t.handlers` field with the trace of invocations so far.  The
body: invoke the handler (append a trace event), then `if t.once
{ t.handlers = nil }` empties the field.  The source's `if t.onceEach
{ handler = nil }` assigns the loop-local variable `handler`, which is never
read again in that iteration: it does not change `t.handlers`, so it
contributes nothing to the state; we keep it as a dead local binding. -/
def publishStep {H A : Type} (once onceEach : Bool) (args : List A)
    (acc : List H × List (H × List A)) (handler : H) : List H × List (H × List A) :=
  let trace := acc.2 ++ [(handler, args)]
  let handlersField := if once then ([] : List H) else acc.1
  let handlerLocal : Option H := if onceEach then none else some handler
  let _ := handlerLocal
  (handlersField, trace)

/-- Embeds `topic.publish` (src/pubsub.go:183-197): no-op on a closed topic;
otherwise Go's `range` iterates over the slice value read at loop entry (a
snapshot), even though the loop body may reassign `t.handlers`.  The `try`
parameter is received but never read in the source; we keep it, unused, as
`tryFlag`.  Returns the updated topic, the invocation trace, and the (always
nil) error. -/
def Topic.publish {H A : Type} (t : Topic H) (args : List A) (tryFlag : Bool) :
    Topic H × List (H × List A) × GoErr :=
  if t.closed then (t, [], none)
  else
    let _ := tryFlag
    let r := t.handlers.foldl (publishStep t.once t.onceEach args) (t.handlers, [])
    ({ t with handlers := r.1 }, r.2, none)

/-- Embeds the Go struct `pubsub` (src/pubsub.go:65-67): the registry's map
from topic name to topic, modelled as a partial function (Go map entries hold
pointers; mutation through the pointer is modelled as updating the map at that
name). -/
structure Pubsub (H : Type) where
  topics : String → Option (Topic H)

/-- Embeds `New` (src/pubsub.go:59-63): empty topic map. -/
def Pubsub.new (H : Type) : Pubsub H := { topics := fun _ => none }

/-- Point update of the topic map, the effect of `p.topics[topic] = t` or of a
mutation through the stored pointer. -/
def Pubsub.setTopic {H : Type} (p : Pubsub H) (name : String) (t : Topic H) : Pubsub H :=
  { topics := fun n => if n = name then some t else p.topics n }

/-- Embeds `pubsub.subscribe` (src/pubsub.go:85-92): looks up the topic,
lazily creating and inserting it if absent, then delegates to
`topic.subscribe`; the topic's post-call state lives in the map. -/
def Pubsub.subscribeImpl {H : Type} (p : Pubsub H) (name : String) (handler : H)
    (once onceEach : Bool) : Pubsub H × GoErr :=
  let t := match p.topics name with
    | some t0 => t0
    | none => newTopic H name
  let r := t.subscribe handler once onceEach
  (p.setTopic name r.1, r.2)

/-- Embeds `pubsub.Subscribe` (src/pubsub.go:70-72): flags `(false, false)`. -/
def Pubsub.goSubscribe {H : Type} (p : Pubsub H) (name : String) (handler : H) :
    Pubsub H × GoErr :=
  p.subscribeImpl name handler false false

/-- Embeds `pubsub.SubscribeOnce` (src/pubsub.go:75-77): flags `(true, false)`. -/
def Pubsub.goSubscribeOnce {H : Type} (p : Pubsub H) (name : String) (handler : H) :
    Pubsub H × GoErr :=
  p.subscribeImpl name handler true false

/-- Embeds `pubsub.SubscribeOnceEach` (src/pubsub.go:80-82): flags `(true, true)`. -/
def Pubsub.goSubscribeOnceEach {H : Type} (p : Pubsub H) (name : String) (handler : H) :
    Pubsub H × GoErr :=
  p.subscribeImpl name handler true true

/-- Embeds `pubsub.Unsubscribe` (src/pubsub.go:95-101): silent success if the
topic is absent, else delegate to `topic.unsubscribe`. -/
def Pubsub.goUnsubscribe {H : Type} (p : Pubsub H) (name : String) : Pubsub H × GoErr :=
  match p.topics name with
  | none => (p, none)
  | some t =>
      let r := t.unsubscribe
      (p.setTopic name r.1, r.2)

/-- Embeds `pubsub.UnsubscribeAll` (src/pubsub.go:104-111), which calls
`topic.unsubscribe` on every topic in the map, stopping at the first error.
`topic.unsubscribe` returns nil on every path, so no iteration ever stops
early and the Go map's unspecified iteration order is immaterial: the net
effect is the pointwise one, and the returned error is nil. -/
def Pubsub.goUnsubscribeAll {H : Type} (p : Pubsub H) : Pubsub H × GoErr :=
  ({ topics := fun n => (p.topics n).map (fun t => t.unsubscribe.1) }, none)

/-- Embeds `pubsub.publish` (src/pubsub.go:123-129): silent success (empty
trace) if the topic is absent, else delegate to `topic.publish`. -/
def Pubsub.publishImpl {H A : Type} (p : Pubsub H) (name : String) (args : List A)
    (tryFlag : Bool) : Pubsub H × List (H × List A) × GoErr :=
  match p.topics name with
  | none => (p, [], none)
  | some t =>
      let r := t.publish args tryFlag
      (p.setTopic name r.1, r.2.1, r.2.2)

/-- Embeds `pubsub.Publish` (src/pubsub.go:114-116): `try = false`. -/
def Pubsub.goPublish {H A : Type} (p : Pubsub H) (name : String) (args : List A) :
    Pubsub H × List (H × List A) × GoErr :=
  p.publishImpl name args false

/-- Embeds `pubsub.TryPublish` (src/pubsub.go:119-121): `try = true`. -/
def Pubsub.goTryPublish {H A : Type} (p : Pubsub H) (name : String) (args : List A) :
    Pubsub H × List (H × List A) × GoErr :=
  p.publishImpl name args true

/-- Embeds `pubsub.CloseTopic` (src/pubsub.go:132-138): silent success if the
topic is absent, else delegate to `topic.close`. -/
def Pubsub.goCloseTopic {H : Type} (p : Pubsub H) (name : String) : Pubsub H × GoErr :=
  match p.topics name with
  | none => (p, none)
  | some t =>
      let r := t.close
      (p.setTopic name r.1, r.2)

/-- Embeds `pubsub.Shutdown` (src/pubsub.go:141-148): `topic.close` on every
topic, stopping at the first error; like `topic.unsubscribe`, `topic.close`
returns nil on every path, so the net effect is pointwise and the error nil. -/
def Pubsub.goShutdown {H : Type} (p : Pubsub H) : Pubsub H × GoErr :=
  ({ topics := fun n => (p.topics n).map (fun t => t.close.1) }, none)

/-- One call through the public API (the nine methods of the `PubSub`
interface, src/pubsub.go:31-56), with its inputs. -/
inductive Op (H A : Type) where
  | subscribe (name : String) (handler : H)
  | subscribeOnce (name : String) (handler : H)
  | subscribeOnceEach (name : String) (handler : H)
  | unsubscribe (name : String)
  | unsubscribeAll
  | publish (name : String) (args : List A)
  | tryPublish (name : String) (args : List A)
  | closeTopic (name : String)
  | shutdown
deriving Repr, DecidableEq

/-- The state reached after one API call (traces and the always-nil errors
dropped). -/
def stepState {H A : Type} (p : Pubsub H) : Op H A → Pubsub H
  | .subscribe name h => (p.goSubscribe name h).1
  | .subscribeOnce name h => (p.goSubscribeOnce name h).1
  | .subscribeOnceEach name h => (p.goSubscribeOnceEach name h).1
  | .unsubscribe name => (p.goUnsubscribe name).1
  | .unsubscribeAll => p.goUnsubscribeAll.1
  | .publish name args => (p.publishImpl name args false).1
  | .tryPublish name args => (p.publishImpl name args true).1
  | .closeTopic name => (p.goCloseTopic name).1
  | .shutdown => p.goShutdown.1

/-- The state reached from `p` after a sequence of API calls. -/
def runOps {H A : Type} (p : Pubsub H) (ops : List (Op H A)) : Pubsub H :=
  ops.foldl stepState p

/-- Holds of `op` exactly when it is one of the three subscribe variants
applied to the topic name `T`. -/
def Op.isSubscribeTo {H A : Type} : Op H A → String → Bool
  | .subscribe n _, T => decide (n = T)
  | .subscribeOnce n _, T => decide (n = T)
  | .subscribeOnceEach n _, T => decide (n = T)
  | _, _ => false

/- ## Helper lemmas about the publish loop -/

theorem foldl_publishStep_trace {H A : Type} (once onceEach : Bool) (args : List A)
    (l : List H) (hs : List H) (tr : List (H × List A)) :
    (l.foldl (publishStep once onceEach args) (hs, tr)).2
      = tr ++ l.map (fun h => (h, args)) := by
  induction l generalizing hs tr with
  | nil => simp
  | cons h rest ih =>
      simp only [List.foldl_cons, List.map_cons]
      rw [publishStep, ih]
      simp

theorem foldl_publishStep_fst_once {H A : Type} (onceEach : Bool) (args : List A)
    (l : List H) (hs : List H) (tr : List (H × List A)) :
    (l.foldl (publishStep true onceEach args) (hs, tr)).1
      = if l.isEmpty then hs else [] := by
  induction l generalizing hs tr with
  | nil => simp
  | cons h rest ih =>
      simp only [List.foldl_cons, List.isEmpty_cons]
      rw [publishStep, ih]
      simp

theorem foldl_publishStep_fst_persistent {H A : Type} (onceEach : Bool) (args : List A)
    (l : List H) (hs : List H) (tr : List (H × List A)) :
    (l.foldl (publishStep false onceEach args) (hs, tr)).1 = hs := by
  induction l generalizing hs tr with
  | nil => rfl
  | cons h rest ih =>
      simp only [List.foldl_cons]
      rw [publishStep, ih]
      simp

/- ## Helper lemmas about Topic operations -/

theorem Topic.publish_closed {H A : Type} (t : Topic H) (args : List A) (b : Bool)
    (h : t.closed = true) : t.publish args b = (t, [], none) := by
  simp [Topic.publish, h]

theorem Topic.publish_trace {H A : Type} (t : Topic H) (args : List A) (b : Bool)
    (h : t.closed = false) :
    (t.publish args b).2.1 = t.handlers.map (fun x => (x, args)) := by
  simp [Topic.publish, h, foldl_publishStep_trace]

theorem Topic.publish_err {H A : Type} (t : Topic H) (args : List A) (b : Bool) :
    (t.publish args b).2.2 = none := by
  by_cases h : t.closed <;> simp [Topic.publish, h]

theorem Topic.publish_fields {H A : Type} (t : Topic H) (args : List A) (b : Bool)
    (h : t.closed = false) :
    (t.publish args b).1.name = t.name ∧ (t.publish args b).1.once = t.once ∧
    (t.publish args b).1.onceEach = t.onceEach ∧ (t.publish args b).1.closed = false := by
  simp [Topic.publish, h]

theorem Topic.publish_handlers_once {H A : Type} (t : Topic H) (args : List A) (b : Bool)
    (hcl : t.closed = false) (ho : t.once = true) :
    (t.publish args b).1.handlers = [] := by
  simp only [Topic.publish, hcl, Bool.false_eq_true, if_false]
  rw [ho, foldl_publishStep_fst_once]
  cases h : t.handlers <;> simp [h]

theorem Topic.publish_handlers_persistent {H A : Type} (t : Topic H) (args : List A)
    (b : Bool) (hcl : t.closed = false) (ho : t.once = false) :
    (t.publish args b).1.handlers = t.handlers := by
  simp only [Topic.publish, hcl, Bool.false_eq_true, if_false]
  rw [ho, foldl_publishStep_fst_persistent]

theorem Topic.subscribe_closed {H : Type} (t : Topic H) (hd : H) (o oe : Bool)
    (h : t.closed = true) : t.subscribe hd o oe = (t, none) := by
  simp [Topic.subscribe, h]

theorem Topic.subscribe_open {H : Type} (t : Topic H) (hd : H) (o oe : Bool)
    (h : t.closed = false) :
    t.subscribe hd o oe
      = ({ t with handlers := t.handlers ++ [hd], once := o, onceEach := oe }, none) := by
  simp [Topic.subscribe, h]

theorem Topic.unsubscribe_result_closed {H : Type} (t : Topic H) :
    t.unsubscribe.1.closed = true := by
  by_cases h : t.closed <;> simp [Topic.unsubscribe, h]

theorem Topic.close_result_closed {H : Type} (t : Topic H) :
    t.close.1.closed = true := by
  by_cases h : t.closed <;> simp [Topic.close, h]

theorem Topic.unsubscribe_of_closed {H : Type} (t : Topic H) (h : t.closed = true) :
    t.unsubscribe = (t, none) := by
  simp [Topic.unsubscribe, h]

theorem Topic.close_of_closed {H : Type} (t : Topic H) (h : t.closed = true) :
    t.close = (t, none) := by
  simp [Topic.close, h]

/- ## Helper lemmas about the registry -/

theorem Pubsub.setTopic_topics {H : Type} (p : Pubsub H) (name n : String) (t : Topic H) :
    (p.setTopic name t).topics n = if n = name then some t else p.topics n := rfl

theorem Pubsub.setTopic_self {H : Type} (p : Pubsub H) (name : String) (t : Topic H)
    (h : p.topics name = some t) : p.setTopic name t = p := by
  cases p with
  | mk f =>
      have hf : f name = some t := h
      simp only [Pubsub.setTopic]
      congr 1
      funext n
      by_cases hn : n = name
      · subst hn; simp [hf]
      · simp [hn]

theorem Pubsub.subscribeImpl_err {H : Type} (p : Pubsub H) (name : String) (hd : H)
    (o oe : Bool) : (p.subscribeImpl name hd o oe).2 = none := by
  unfold Pubsub.subscribeImpl
  cases hmem : p.topics name with
  | none => by_cases h : (newTopic H name).closed <;> simp [Topic.subscribe, h]
  | some t => by_cases h : t.closed <;> simp [Topic.subscribe, h]

/- ## The closed-implies-empty topic invariant -/

/-- The per-topic invariant: a closed topic has an empty handler collection. -/
def TopicInv {H : Type} (t : Topic H) : Prop :=
  t.closed = true → t.handlers = []

theorem TopicInv_newTopic {H : Type} (name : String) : TopicInv (newTopic H name) := by
  intro h
  rfl

theorem TopicInv_subscribe {H : Type} {t : Topic H} (hi : TopicInv t) (hd : H)
    (o oe : Bool) : TopicInv (t.subscribe hd o oe).1 := by
  by_cases h : t.closed
  · rw [Topic.subscribe_closed t hd o oe h]; exact hi
  · rw [Topic.subscribe_open t hd o oe (by simpa using h)]
    intro hc
    simp at hc
    exact absurd hc h

theorem TopicInv_unsubscribe {H : Type} {t : Topic H} (hi : TopicInv t) :
    TopicInv t.unsubscribe.1 := by
  by_cases h : t.closed
  · rw [Topic.unsubscribe_of_closed t h]; exact hi
  · simp [Topic.unsubscribe, h, TopicInv]

theorem TopicInv_close {H : Type} {t : Topic H} (hi : TopicInv t) :
    TopicInv t.close.1 := by
  by_cases h : t.closed
  · rw [Topic.close_of_closed t h]; exact hi
  · simp [Topic.close, h, TopicInv]

theorem TopicInv_publish {H A : Type} {t : Topic H} (hi : TopicInv t) (args : List A)
    (b : Bool) : TopicInv (t.publish args b).1 := by
  by_cases h : t.closed
  · rw [Topic.publish_closed t args b h]; exact hi
  · have hfields := Topic.publish_fields t args b (by simpa using h)
    intro hc
    rw [hfields.2.2.2] at hc
    exact absurd hc (by simp)

/-- The registry-wide invariant: every topic in the map satisfies `TopicInv`. -/
def PubsubInv {H : Type} (p : Pubsub H) : Prop :=
  ∀ (name : String) (t : Topic H), p.topics name = some t → TopicInv t

theorem PubsubInv_new (H : Type) : PubsubInv (Pubsub.new H) := by
  intro name t h
  simp [Pubsub.new] at h

theorem PubsubInv_setTopic {H : Type} {p : Pubsub H} (hp : PubsubInv p) {t : Topic H}
    (ht : TopicInv t) (name : String) : PubsubInv (p.setTopic name t) := by
  intro n u hu
  rw [Pubsub.setTopic_topics] at hu
  by_cases hn : n = name
  · rw [if_pos hn] at hu
    cases hu
    exact ht
  · rw [if_neg hn] at hu
    exact hp n u hu

theorem PubsubInv_subscribeImpl {H : Type} {p : Pubsub H} (hp : PubsubInv p)
    (name : String) (hd : H) (o oe : Bool) :
    PubsubInv (p.subscribeImpl name hd o oe).1 := by
  unfold Pubsub.subscribeImpl
  cases hmem : p.topics name with
  | none =>
      exact PubsubInv_setTopic hp (TopicInv_subscribe (TopicInv_newTopic name) hd o oe) name
  | some t =>
      exact PubsubInv_setTopic hp (TopicInv_subscribe (hp name t hmem) hd o oe) name

theorem PubsubInv_step {H A : Type} {p : Pubsub H} (hp : PubsubInv p) (op : Op H A) :
    PubsubInv (stepState p op) := by
  cases op with
  | subscribe name hd => exact PubsubInv_subscribeImpl hp name hd false false
  | subscribeOnce name hd => exact PubsubInv_subscribeImpl hp name hd true false
  | subscribeOnceEach name hd => exact PubsubInv_subscribeImpl hp name hd true true
  | unsubscribe name =>
      simp only [stepState, Pubsub.goUnsubscribe]
      cases hmem : p.topics name with
      | none => exact hp
      | some t => exact PubsubInv_setTopic hp (TopicInv_unsubscribe (hp name t hmem)) name
  | unsubscribeAll =>
      intro n u hu
      simp only [stepState, Pubsub.goUnsubscribeAll] at hu
      cases hmem : p.topics n with
      | none => rw [hmem, Option.map_none'] at hu; cases hu
      | some t =>
          rw [hmem, Option.map_some'] at hu
          cases hu
          exact TopicInv_unsubscribe (hp n t hmem)
  | publish name args =>
      simp only [stepState, Pubsub.publishImpl]
      cases hmem : p.topics name with
      | none => exact hp
      | some t => exact PubsubInv_setTopic hp (TopicInv_publish (hp name t hmem) args false) name
  | tryPublish name args =>
      simp only [stepState, Pubsub.publishImpl]
      cases hmem : p.topics name with
      | none => exact hp
      | some t => exact PubsubInv_setTopic hp (TopicInv_publish (hp name t hmem) args true) name
  | closeTopic name =>
      simp only [stepState, Pubsub.goCloseTopic]
      cases hmem : p.topics name with
      | none => exact hp
      | some t => exact PubsubInv_setTopic hp (TopicInv_close (hp name t hmem)) name
  | shutdown =>
      intro n u hu
      simp only [stepState, Pubsub.goShutdown] at hu
      cases hmem : p.topics n with
      | none => rw [hmem, Option.map_none'] at hu; cases hu
      | some t =>
          rw [hmem, Option.map_some'] at hu
          cases hu
          exact TopicInv_close (hp n t hmem)

theorem PubsubInv_runOps {H A : Type} {p : Pubsub H} (hp : PubsubInv p)
    (ops : List (Op H A)) : PubsubInv (runOps p ops) := by
  induction ops generalizing p with
  | nil => exact hp
  | cons op rest ih => exact ih (PubsubInv_step hp op)

/- ## Closed topics are frozen forever -/

theorem closed_topic_step {H A : Type} {p : Pubsub H} {T : String} {t : Topic H}
    (hmem : p.topics T = some t) (hcl : t.closed = true) (op : Op H A) :
    (stepState p op).topics T = some t := by
  cases op with
  | subscribe name hd =>
      simp only [stepState, Pubsub.goSubscribe, Pubsub.subscribeImpl]
      by_cases hn : T = name
      · subst hn
        rw [hmem, Topic.subscribe_closed t hd false false hcl, Pubsub.setTopic_topics,
          if_pos rfl]
      · rw [Pubsub.setTopic_topics, if_neg hn, hmem]
  | subscribeOnce name hd =>
      simp only [stepState, Pubsub.goSubscribeOnce, Pubsub.subscribeImpl]
      by_cases hn : T = name
      · subst hn
        rw [hmem, Topic.subscribe_closed t hd true false hcl, Pubsub.setTopic_topics,
          if_pos rfl]
      · rw [Pubsub.setTopic_topics, if_neg hn, hmem]
  | subscribeOnceEach name hd =>
      simp only [stepState, Pubsub.goSubscribeOnceEach, Pubsub.subscribeImpl]
      by_cases hn : T = name
      · subst hn
        rw [hmem, Topic.subscribe_closed t hd true true hcl, Pubsub.setTopic_topics,
          if_pos rfl]
      · rw [Pubsub.setTopic_topics, if_neg hn, hmem]
  | unsubscribe name =>
      simp only [stepState, Pubsub.goUnsubscribe]
      by_cases hn : T = name
      · subst hn
        rw [hmem]
        simp only [Topic.unsubscribe_of_closed t hcl]
        rw [Pubsub.setTopic_topics, if_pos rfl]
      · cases hmem2 : p.topics name with
        | none => exact hmem
        | some u => rw [Pubsub.setTopic_topics, if_neg hn]; exact hmem
  | unsubscribeAll =>
      simp only [stepState, Pubsub.goUnsubscribeAll]
      rw [hmem]
      simp [Topic.unsubscribe_of_closed t hcl]
  | publish name args =>
      simp only [stepState, Pubsub.publishImpl]
      by_cases hn : T = name
      · subst hn
        rw [hmem]
        simp only [Topic.publish_closed t args false hcl]
        rw [Pubsub.setTopic_topics, if_pos rfl]
      · cases hmem2 : p.topics name with
        | none => exact hmem
        | some u => rw [Pubsub.setTopic_topics, if_neg hn]; exact hmem
  | tryPublish name args =>
      simp only [stepState, Pubsub.publishImpl]
      by_cases hn : T = name
      · subst hn
        rw [hmem]
        simp only [Topic.publish_closed t args true hcl]
        rw [Pubsub.setTopic_topics, if_pos rfl]
      · cases hmem2 : p.topics name with
        | none => exact hmem
        | some u => rw [Pubsub.setTopic_topics, if_neg hn]; exact hmem
  | closeTopic name =>
      simp only [stepState, Pubsub.goCloseTopic]
      by_cases hn : T = name
      · subst hn
        rw [hmem]
        simp only [Topic.close_of_closed t hcl]
        rw [Pubsub.setTopic_topics, if_pos rfl]
      · cases hmem2 : p.topics name with
        | none => exact hmem
        | some u => rw [Pubsub.setTopic_topics, if_neg hn]; exact hmem
  | shutdown =>
      simp only [stepState, Pubsub.goShutdown]
      rw [hmem]
      simp [Topic.close_of_closed t hcl]

theorem closed_topic_runOps {H A : Type} {p : Pubsub H} {T : String} {t : Topic H}
    (hmem : p.topics T = some t) (hcl : t.closed = true) (ops : List (Op H A)) :
    (runOps p ops).topics T = some t := by
  induction ops generalizing p with
  | nil => exact hmem
  | cons op rest ih => exact ih (closed_topic_step hmem hcl op)

/- ## Names never subscribed to stay absent -/

theorem absent_topic_step {H A : Type} {p : Pubsub H} {T : String}
    (hab : p.topics T = none) (op : Op H A) (hns : op.isSubscribeTo T = false) :
    (stepState p op).topics T = none := by
  cases op with
  | subscribe name hd =>
      simp only [Op.isSubscribeTo, decide_eq_false_iff_not] at hns
      simp only [stepState, Pubsub.goSubscribe, Pubsub.subscribeImpl]
      rw [Pubsub.setTopic_topics, if_neg (fun h => hns h.symm), hab]
  | subscribeOnce name hd =>
      simp only [Op.isSubscribeTo, decide_eq_false_iff_not] at hns
      simp only [stepState, Pubsub.goSubscribeOnce, Pubsub.subscribeImpl]
      rw [Pubsub.setTopic_topics, if_neg (fun h => hns h.symm), hab]
  | subscribeOnceEach name hd =>
      simp only [Op.isSubscribeTo, decide_eq_false_iff_not] at hns
      simp only [stepState, Pubsub.goSubscribeOnceEach, Pubsub.subscribeImpl]
      rw [Pubsub.setTopic_topics, if_neg (fun h => hns h.symm), hab]
  | unsubscribe name =>
      simp only [stepState, Pubsub.goUnsubscribe]
      cases hmem : p.topics name with
      | none => exact hab
      | some u =>
          rw [Pubsub.setTopic_topics]
          by_cases hn : T = name
          · subst hn; rw [hmem] at hab; cases hab
          · rw [if_neg hn, hab]
  | unsubscribeAll =>
      simp only [stepState, Pubsub.goUnsubscribeAll]
      rw [hab]
      rfl
  | publish name args =>
      simp only [stepState, Pubsub.publishImpl]
      cases hmem : p.topics name with
      | none => exact hab
      | some u =>
          rw [Pubsub.setTopic_topics]
          by_cases hn : T = name
          · subst hn; rw [hmem] at hab; cases hab
          · rw [if_neg hn, hab]
  | tryPublish name args =>
      simp only [stepState, Pubsub.publishImpl]
      cases hmem : p.topics name with
      | none => exact hab
      | some u =>
          rw [Pubsub.setTopic_topics]
          by_cases hn : T = name
          · subst hn; rw [hmem] at hab; cases hab
          · rw [if_neg hn, hab]
  | closeTopic name =>
      simp only [stepState, Pubsub.goCloseTopic]
      cases hmem : p.topics name with
      | none => exact hab
      | some u =>
          rw [Pubsub.setTopic_topics]
          by_cases hn : T = name
          · subst hn; rw [hmem] at hab; cases hab
          · rw [if_neg hn, hab]
  | shutdown =>
      simp only [stepState, Pubsub.goShutdown]
      rw [hab]
      rfl

theorem absent_topic_runOps {H A : Type} {p : Pubsub H} {T : String}
    (hab : p.topics T = none) (ops : List (Op H A))
    (hns : ∀ op ∈ ops, op.isSubscribeTo T = false) :
    (runOps p ops).topics T = none := by
  induction ops generalizing p with
  | nil => exact hab
  | cons op rest ih =>
      exact ih (absent_topic_step hab op (hns op (List.mem_cons_self op rest)))
        (fun o ho => hns o (List.mem_cons_of_mem op ho))

theorem Topic.publish_trace_of_empty {H A : Type} (t : Topic H)
    (h : t.handlers = []) (args : List A) (b : Bool) :
    (t.publish args b).2.1 = [] := by
  by_cases hc : t.closed
  · rw [Topic.publish_closed t args b hc]
  · rw [Topic.publish_trace t args b (by simpa using hc), h]
    rfl

/- ## Claim theorems -/

/-- Claim C3: `Publish` and `TryPublish` are behaviorally equivalent in this
implementation: for every starting state, topic name and argument list, the
two calls yield identical results (same new state, same handler invocations in
the same order) and both return the nil error.  This holds because
`topic.publish` never reads its `try` parameter and handlers
(`func(...any)`) have no way to return an error. -/
theorem publish_tryPublish_equivalent {H A : Type} (p : Pubsub H) (T : String)
    (args : List A) :
    p.goPublish T args = p.goTryPublish T args ∧
    (p.goPublish T args).2.2 = none ∧ (p.goTryPublish T args).2.2 = none := by
  refine ⟨rfl, ?_, ?_⟩ <;>
  · simp only [Pubsub.goPublish, Pubsub.goTryPublish, Pubsub.publishImpl]
    cases hmem : p.topics T with
    | none => rfl
    | some t => simp [Topic.publish_err]

/-- Claim C2 (code behavior, refuting the claimed error propagation): on a
topic with three handlers, `TryPublish` invokes all three handlers — the
third included — and returns the nil error.  The source's `topic.publish`
never reads its `try` parameter and the handler type `func(...any)` has no
error result, so no handler error can halt delivery or reach the caller,
contrary to the doc comment `TryPublish calls all handlers for the topic and
returns the first error` (src/pubsub.go:41). -/
theorem tryPublish_runs_all_handlers_and_returns_nil :
    ((((((Pubsub.new Nat).goSubscribe "t" 1).1.goSubscribe "t" 2).1.goSubscribe
        "t" 3).1.goTryPublish "t" ([10] : List Nat)).2.1
      = [(1, [10]), (2, [10]), (3, [10])]) ∧
    ((((((Pubsub.new Nat).goSubscribe "t" 1).1.goSubscribe "t" 2).1.goSubscribe
        "t" 3).1.goTryPublish "t" ([10] : List Nat)).2.2 = none) := by
  exact ⟨rfl, rfl⟩

/-- Claim C8: publishing on an open topic invokes exactly the handlers in the
topic's ordered collection (which subscribe builds in subscription order),
one invocation per entry, in collection order, each receiving exactly the
argument list given to the publish call.  The invocation trace is literally
the handler list mapped to `(handler, args)` pairs. -/
theorem publish_invokes_handlers_in_order_with_exact_args {H A : Type}
    (t : Topic H) (hopen : t.closed = false) (args : List A) (b : Bool) :
    (t.publish args b).2.1 = t.handlers.map (fun x => (x, args)) :=
  Topic.publish_trace t args b hopen

/-- Witness for C8 at a concrete open topic with two handlers. -/
theorem publish_invokes_handlers_in_order_with_exact_args_witness :
    (Topic.publish
        { name := "t", handlers := [4, 7], once := false, onceEach := false,
          closed := false } ([1, 2] : List Nat) false).2.1
      = [(4, [1, 2]), (7, [1, 2])] := by
  rw [publish_invokes_handlers_in_order_with_exact_args _ rfl]
  rfl

/-- Claim C9: on an open topic, a subscribe call appends the handler to the
ordered collection and overwrites both delivery-mode flags with the flags of
this call alone; after a second subscribe the topic-wide mode is the second
call's, governing the earlier handler too. -/
theorem subscribe_appends_handler_and_mode_last_write_wins {H : Type}
    (t : Topic H) (hopen : t.closed = false) (h1 h2 : H) (o1 oe1 o2 oe2 : Bool) :
    t.subscribe h1 o1 oe1
      = ({ t with handlers := t.handlers ++ [h1], once := o1, onceEach := oe1 },
         none) ∧
    ((t.subscribe h1 o1 oe1).1.subscribe h2 o2 oe2).1
      = { t with handlers := t.handlers ++ [h1, h2], once := o2, onceEach := oe2 } := by
  have e1 := Topic.subscribe_open t h1 o1 oe1 hopen
  refine ⟨e1, ?_⟩
  rw [e1, Topic.subscribe_open
    { t with handlers := t.handlers ++ [h1], once := o1, onceEach := oe1 }
    h2 o2 oe2 hopen]
  simp

/-- Witness for C9 at a concrete open topic: a `SubscribeOnce`-flagged call
then a plain call leave the mode Persistent for both handlers. -/
theorem subscribe_appends_handler_and_mode_last_write_wins_witness :
    Topic.subscribe
        { name := "t", handlers := ([] : List Nat), once := false,
          onceEach := false, closed := false } 4 true false
      = ({ name := "t", handlers := [4], once := true, onceEach := false,
           closed := false }, none) ∧
    ((Topic.subscribe
        { name := "t", handlers := ([] : List Nat), once := false,
          onceEach := false, closed := false } 4 true false).1.subscribe
          7 false false).1
      = { name := "t", handlers := [4, 7], once := false, onceEach := false,
          closed := false } := by
  have h := subscribe_appends_handler_and_mode_last_write_wins
    { name := "t", handlers := ([] : List Nat), once := false,
      onceEach := false, closed := false } rfl 4 7 true false false false
  exact ⟨h.1, h.2⟩

/-- Claim C10: each of the three subscribe variants, called on a topic that is
already closed, returns the nil error and leaves the registry state exactly
unchanged (the handler is silently dropped); and every subscribe call in every
state returns the nil error, so the return value cannot distinguish a dropped
subscription from an effective one. -/
theorem subscribe_on_closed_topic_silent_noop {H : Type} (p : Pubsub H)
    (T : String) (t : Topic H) (hmem : p.topics T = some t)
    (hcl : t.closed = true) (hd : H) :
    p.goSubscribe T hd = (p, none) ∧ p.goSubscribeOnce T hd = (p, none) ∧
    p.goSubscribeOnceEach T hd = (p, none) ∧
    ∀ (q : Pubsub H) (n : String) (x : H) (o oe : Bool),
      (q.subscribeImpl n x o oe).2 = none := by
  have key : ∀ o oe : Bool, p.subscribeImpl T hd o oe = (p, none) := by
    intro o oe
    simp only [Pubsub.subscribeImpl, hmem, Topic.subscribe_closed t hd o oe hcl,
      Pubsub.setTopic_self p T t hmem]
  exact ⟨key false false, key true false, key true true,
    fun q n x o oe => Pubsub.subscribeImpl_err q n x o oe⟩

/-- Witness for C10: subscribing to the topic of a concrete registry whose
only topic is closed is a silent no-op. -/
theorem subscribe_on_closed_topic_silent_noop_witness :
    (Pubsub.setTopic (Pubsub.new Nat) "t"
        { name := "t", handlers := [], once := false, onceEach := false,
          closed := true }).goSubscribe "t" 9
      = (Pubsub.setTopic (Pubsub.new Nat) "t"
          { name := "t", handlers := [], once := false, onceEach := false,
            closed := true }, none) :=
  (subscribe_on_closed_topic_silent_noop
    (Pubsub.setTopic (Pubsub.new Nat) "t"
      { name := "t", handlers := [], once := false, onceEach := false,
        closed := true })
    "t" _ rfl rfl 9).1

/-- Claim C7: for a topic name never subscribed to in the whole operation
history, no registry entry exists, and `Publish`, `TryPublish`, `Unsubscribe`
and `CloseTopic` on that name each return the nil error while leaving the
registry state exactly as it was (no entry created, no topic modified). -/
theorem ops_on_never_subscribed_topic_are_noops {H A : Type}
    (ops : List (Op H A)) (T : String)
    (hns : ∀ op ∈ ops, op.isSubscribeTo T = false) (args : List A) :
    (runOps (Pubsub.new H) ops).topics T = none ∧
    (runOps (Pubsub.new H) ops).goPublish T args
      = (runOps (Pubsub.new H) ops, [], none) ∧
    (runOps (Pubsub.new H) ops).goTryPublish T args
      = (runOps (Pubsub.new H) ops, [], none) ∧
    (runOps (Pubsub.new H) ops).goUnsubscribe T = (runOps (Pubsub.new H) ops, none) ∧
    (runOps (Pubsub.new H) ops).goCloseTopic T = (runOps (Pubsub.new H) ops, none) := by
  have hab : (runOps (Pubsub.new H) ops).topics T = none :=
    absent_topic_runOps rfl ops hns
  refine ⟨hab, ?_, ?_, ?_, ?_⟩ <;>
    simp [Pubsub.goPublish, Pubsub.goTryPublish, Pubsub.publishImpl,
      Pubsub.goUnsubscribe, Pubsub.goCloseTopic, hab]

/-- Witness for C7: after subscribing only to topic `"b"`, the four
operations on the never-subscribed name `"a"` are silent no-ops. -/
theorem ops_on_never_subscribed_topic_are_noops_witness :
    (runOps (Pubsub.new Nat) [(Op.subscribe "b" 0 : Op Nat Nat)]).topics "a" = none ∧
    (runOps (Pubsub.new Nat) [(Op.subscribe "b" 0 : Op Nat Nat)]).goPublish "a" [7]
      = (runOps (Pubsub.new Nat) [(Op.subscribe "b" 0 : Op Nat Nat)], [], none) ∧
    (runOps (Pubsub.new Nat) [(Op.subscribe "b" 0 : Op Nat Nat)]).goTryPublish "a" [7]
      = (runOps (Pubsub.new Nat) [(Op.subscribe "b" 0 : Op Nat Nat)], [], none) ∧
    (runOps (Pubsub.new Nat) [(Op.subscribe "b" 0 : Op Nat Nat)]).goUnsubscribe "a"
      = (runOps (Pubsub.new Nat) [(Op.subscribe "b" 0 : Op Nat Nat)], none) ∧
    (runOps (Pubsub.new Nat) [(Op.subscribe "b" 0 : Op Nat Nat)]).goCloseTopic "a"
      = (runOps (Pubsub.new Nat) [(Op.subscribe "b" 0 : Op Nat Nat)], none) :=
  ops_on_never_subscribed_topic_are_noops [(Op.subscribe "b" 0 : Op Nat Nat)] "a"
    (by decide) [7]

/-- Claim C5: the invariant `closed = true → handlers = []` holds for every
topic of every state reachable from a fresh registry by any sequence of API
calls: a closed topic always has an empty handler collection. -/
theorem closed_topic_has_empty_handlers_in_reachable_states {H A : Type}
    (ops : List (Op H A)) (T : String) (t : Topic H)
    (hmem : (runOps (Pubsub.new H) ops).topics T = some t)
    (hcl : t.closed = true) : t.handlers = [] :=
  PubsubInv_runOps (PubsubInv_new H) ops T t hmem hcl

/-- Witness for C5: the state reached by subscribing to `"a"` and closing it
holds a closed topic at `"a"`, and the theorem yields its emptiness. -/
theorem closed_topic_has_empty_handlers_in_reachable_states_witness :
    (runOps (Pubsub.new Nat)
        [(Op.subscribe "a" 0 : Op Nat Nat), Op.closeTopic "a"]).topics "a"
      = some { name := "a", handlers := [], once := false, onceEach := false,
               closed := true } ∧
    Topic.handlers { name := "a", handlers := ([] : List Nat), once := false,
                     onceEach := false, closed := true } = [] :=
  ⟨rfl, closed_topic_has_empty_handlers_in_reachable_states
    [(Op.subscribe "a" 0 : Op Nat Nat), Op.closeTopic "a"] "a" _ rfl rfl⟩

/-- Claim C6: once `Unsubscribe(T)` or `CloseTopic(T)` has run on an existing
topic `T`, then after any sequence of later API calls the topic at `T` is
still closed, publishing on `T` invokes no handlers, and subscribing to `T`
leaves the registry state exactly unchanged (nothing is registered and the
topic stays closed): the topic is never revived. -/
theorem closed_topic_is_never_revived {H A : Type} (p : Pubsub H) (T : String)
    (t : Topic H) (hmem : p.topics T = some t) (p1 : Pubsub H)
    (hp1 : p1 = (p.goUnsubscribe T).1 ∨ p1 = (p.goCloseTopic T).1)
    (ops : List (Op H A)) :
    ∃ t2 : Topic H, (runOps p1 ops).topics T = some t2 ∧ t2.closed = true ∧
      (∀ (args : List A) (b : Bool),
        ((runOps p1 ops).publishImpl T args b).2.1 = []) ∧
      (∀ (hd : H) (o oe : Bool),
        ((runOps p1 ops).subscribeImpl T hd o oe).1 = runOps p1 ops) := by
  have h1 : ∃ t1 : Topic H, p1.topics T = some t1 ∧ t1.closed = true := by
    rcases hp1 with h | h
    · refine ⟨t.unsubscribe.1, ?_, Topic.unsubscribe_result_closed t⟩
      rw [h]
      simp only [Pubsub.goUnsubscribe, hmem]
      rw [Pubsub.setTopic_topics, if_pos rfl]
    · refine ⟨t.close.1, ?_, Topic.close_result_closed t⟩
      rw [h]
      simp only [Pubsub.goCloseTopic, hmem]
      rw [Pubsub.setTopic_topics, if_pos rfl]
  obtain ⟨t1, hmem1, hcl1⟩ := h1
  have hmem2 : (runOps p1 ops).topics T = some t1 :=
    closed_topic_runOps hmem1 hcl1 ops
  refine ⟨t1, hmem2, hcl1, ?_, ?_⟩
  · intro args b
    simp only [Pubsub.publishImpl, hmem2, Topic.publish_closed t1 args b hcl1]
  · intro hd o oe
    simp only [Pubsub.subscribeImpl, hmem2, Topic.subscribe_closed t1 hd o oe hcl1]
    exact Pubsub.setTopic_self _ T t1 hmem2

/-- Witness for C6: subscribe to `"a"`, unsubscribe it, then subscribe to
`"a"` again; the topic stays closed, a publish invokes nothing, and a further
subscribe changes nothing. -/
theorem closed_topic_is_never_revived_witness :
    ∃ t2 : Topic Nat,
      (runOps ((((Pubsub.new Nat).goSubscribe "a" 0).1.goUnsubscribe "a").1)
          [(Op.subscribe "a" 1 : Op Nat Nat)]).topics "a" = some t2 ∧
      t2.closed = true ∧
      (∀ (args : List Nat) (b : Bool),
        ((runOps ((((Pubsub.new Nat).goSubscribe "a" 0).1.goUnsubscribe "a").1)
            [(Op.subscribe "a" 1 : Op Nat Nat)]).publishImpl "a" args b).2.1
          = []) ∧
      (∀ (hd : Nat) (o oe : Bool),
        ((runOps ((((Pubsub.new Nat).goSubscribe "a" 0).1.goUnsubscribe "a").1)
            [(Op.subscribe "a" 1 : Op Nat Nat)]).subscribeImpl "a" hd o oe).1
          = runOps ((((Pubsub.new Nat).goSubscribe "a" 0).1.goUnsubscribe "a").1)
              [(Op.subscribe "a" 1 : Op Nat Nat)]) :=
  closed_topic_is_never_revived (((Pubsub.new Nat).goSubscribe "a" 0).1) "a"
    { name := "a", handlers := [0], once := false, onceEach := false,
      closed := false }
    rfl _ (Or.inl rfl) [(Op.subscribe "a" 1 : Op Nat Nat)]

/-- Claim C1: after `SubscribeOnceEach` on an open or absent topic (the call
sets both `once = true` and `onceEach = true`), a publish invokes every
registered handler, and immediately after each handler's invocation completes
— i.e. after the loop body of that same iteration, whose `handlers` field
value is the first component of the fold over the first `k + 1` snapshot
entries — the topic's handler collection has been mutated to the empty
collection, so the fired handler is no longer in it; hence the collection is
empty when the publish returns and no subsequent publish invokes any handler.
The clearing mutation is the `once` branch (`t.handlers = nil`,
src/pubsub.go:190); the `onceEach` branch only nils the loop-local variable,
but `SubscribeOnceEach` always sets both flags, so the removal does happen on
the owning collection. -/
theorem subscribeOnceEach_handler_removed_after_fire {H A : Type}
    (p : Pubsub H) (T : String) (hd : H)
    (hopen : ∀ t0, p.topics T = some t0 → t0.closed = false)
    (args : List A) (b : Bool) :
    ∃ t : Topic H, ((p.goSubscribeOnceEach T hd).1).topics T = some t ∧
      t.once = true ∧ t.onceEach = true ∧ t.closed = false ∧
      (t.publish args b).2.1 = t.handlers.map (fun x => (x, args)) ∧
      (∀ k, k < t.handlers.length →
        ((t.handlers.take (k + 1)).foldl (publishStep t.once t.onceEach args)
            (t.handlers, [])).1 = []) ∧
      (t.publish args b).1.handlers = [] ∧
      (∀ (args2 : List A) (b2 : Bool),
        ((t.publish args b).1.publish args2 b2).2.1 = []) := by
  obtain ⟨base, hbase, hbcl⟩ : ∃ base : Topic H,
      ((p.goSubscribeOnceEach T hd).1).topics T
        = some (base.subscribe hd true true).1 ∧ base.closed = false := by
    cases hmem : p.topics T with
    | none =>
        refine ⟨newTopic H T, ?_, rfl⟩
        simp only [Pubsub.goSubscribeOnceEach, Pubsub.subscribeImpl, hmem]
        rw [Pubsub.setTopic_topics, if_pos rfl]
    | some t0 =>
        refine ⟨t0, ?_, hopen t0 hmem⟩
        simp only [Pubsub.goSubscribeOnceEach, Pubsub.subscribeImpl, hmem]
        rw [Pubsub.setTopic_topics, if_pos rfl]
  rw [Topic.subscribe_open base hd true true hbcl] at hbase
  obtain ⟨t, hbase, htonce, htoe, htcl, htne⟩ : ∃ t : Topic H,
      ((p.goSubscribeOnceEach T hd).1).topics T = some t ∧ t.once = true ∧
      t.onceEach = true ∧ t.closed = false ∧ t.handlers ≠ [] :=
    ⟨_, hbase, rfl, rfl, hbcl, by simp⟩
  refine ⟨t, hbase, htonce, htoe, htcl, Topic.publish_trace t args b htcl,
    ?_, Topic.publish_handlers_once t args b htcl htonce, ?_⟩
  · intro k hk
    rw [htonce, htoe, foldl_publishStep_fst_once]
    have hne : (t.handlers.take (k + 1)).isEmpty = false := by
      rcases hx : t.handlers with _ | ⟨x, xs⟩
      · exact absurd hx htne
      · simp [List.take_succ_cons]
    rw [hne]
    simp
  · intro args2 b2
    exact Topic.publish_trace_of_empty _
      (Topic.publish_handlers_once t args b htcl htonce) args2 b2

/-- Witness for C1: `SubscribeOnceEach` on a fresh registry, then publish. -/
theorem subscribeOnceEach_handler_removed_after_fire_witness :
    ∃ t : Topic Nat,
      (((Pubsub.new Nat).goSubscribeOnceEach "a" 5).1).topics "a" = some t ∧
      t.once = true ∧ t.onceEach = true ∧ t.closed = false ∧
      (t.publish ([3] : List Nat) false).2.1
        = t.handlers.map (fun x => (x, [3])) ∧
      (∀ k, k < t.handlers.length →
        ((t.handlers.take (k + 1)).foldl
            (publishStep t.once t.onceEach ([3] : List Nat))
            (t.handlers, [])).1 = []) ∧
      (t.publish ([3] : List Nat) false).1.handlers = [] ∧
      (∀ (args2 : List Nat) (b2 : Bool),
        ((t.publish ([3] : List Nat) false).1.publish args2 b2).2.1 = []) :=
  subscribeOnceEach_handler_removed_after_fire (Pubsub.new Nat) "a" 5
    (fun _t0 h => nomatch h) ([3] : List Nat) false

/-- Claim C4: after `SubscribeOnce` on an open or absent topic (the call sets
`once = true`), the next publish invokes every registered handler; when it
completes the handler collection is empty while the topic stays open
(`closed = false`), so a second publish invokes no handlers, and the topic
can be subscribed to again. -/
theorem subscribeOnce_first_publish_clears_handlers {H A : Type}
    (p : Pubsub H) (T : String) (hd : H)
    (hopen : ∀ t0, p.topics T = some t0 → t0.closed = false)
    (args : List A) (b : Bool) :
    ∃ t : Topic H, ((p.goSubscribeOnce T hd).1).topics T = some t ∧
      t.once = true ∧ t.closed = false ∧
      (t.publish args b).2.1 = t.handlers.map (fun x => (x, args)) ∧
      (t.publish args b).1.handlers = [] ∧
      (t.publish args b).1.closed = false ∧
      (∀ (args2 : List A) (b2 : Bool),
        ((t.publish args b).1.publish args2 b2).2.1 = []) ∧
      (∀ (hd2 : H) (o2 oe2 : Bool),
        ((t.publish args b).1.subscribe hd2 o2 oe2).1.handlers = [hd2]) := by
  obtain ⟨base, hbase, hbcl⟩ : ∃ base : Topic H,
      ((p.goSubscribeOnce T hd).1).topics T
        = some (base.subscribe hd true false).1 ∧ base.closed = false := by
    cases hmem : p.topics T with
    | none =>
        refine ⟨newTopic H T, ?_, rfl⟩
        simp only [Pubsub.goSubscribeOnce, Pubsub.subscribeImpl, hmem]
        rw [Pubsub.setTopic_topics, if_pos rfl]
    | some t0 =>
        refine ⟨t0, ?_, hopen t0 hmem⟩
        simp only [Pubsub.goSubscribeOnce, Pubsub.subscribeImpl, hmem]
        rw [Pubsub.setTopic_topics, if_pos rfl]
  rw [Topic.subscribe_open base hd true false hbcl] at hbase
  obtain ⟨t, hbase, htonce, htcl⟩ : ∃ t : Topic H,
      ((p.goSubscribeOnce T hd).1).topics T = some t ∧ t.once = true ∧
      t.closed = false :=
    ⟨_, hbase, rfl, hbcl⟩
  have hcl2 : (t.publish args b).1.closed = false :=
    (Topic.publish_fields t args b htcl).2.2.2
  have hh2 : (t.publish args b).1.handlers = [] :=
    Topic.publish_handlers_once t args b htcl htonce
  refine ⟨t, hbase, htonce, htcl, Topic.publish_trace t args b htcl,
    hh2, hcl2, ?_, ?_⟩
  · intro args2 b2
    exact Topic.publish_trace_of_empty _ hh2 args2 b2
  · intro hd2 o2 oe2
    rw [Topic.subscribe_open _ hd2 o2 oe2 hcl2]
    simp [hh2]

/-- Witness for C4: `SubscribeOnce` on a fresh registry, then publish. -/
theorem subscribeOnce_first_publish_clears_handlers_witness :
    ∃ t : Topic Nat,
      (((Pubsub.new Nat).goSubscribeOnce "a" 5).1).topics "a" = some t ∧
      t.once = true ∧ t.closed = false ∧
      (t.publish ([3] : List Nat) false).2.1
        = t.handlers.map (fun x => (x, [3])) ∧
      (t.publish ([3] : List Nat) false).1.handlers = [] ∧
      (t.publish ([3] : List Nat) false).1.closed = false ∧
      (∀ (args2 : List Nat) (b2 : Bool),
        ((t.publish ([3] : List Nat) false).1.publish args2 b2).2.1 = []) ∧
      (∀ (hd2 : Nat) (o2 oe2 : Bool),
        ((t.publish ([3] : List Nat) false).1.subscribe hd2 o2 oe2).1.handlers
          = [hd2]) :=
  subscribeOnce_first_publish_clears_handlers (Pubsub.new Nat) "a" 5
    (fun _t0 h => nomatch h) ([3] : List Nat) false

end PubsubGo
